import Mathlib

/-
  Verification development for the private-data reconciliation subsystem of a
  permissioned-ledger peer (gossip/privdata and gossip/service packages).

  The repository tree under verification contains the test suites
  (gossip/privdata/coordinator_test.go, the block/pvtdata factories) and the
  service layer (gossip/service/gossip_service.go), but not the coordinator
  implementation itself nor the PvtDataCollections codec.  Those two parts are
  therefore modelled from the specification document, with every behaviour the
  repository's own tests pin exactly (error-message strings, branch conditions,
  requested filters, batched fetch requests) taken from the tests.

  Machine integers (uint64 sequence numbers) are modelled as Nat: no arithmetic
  in the modelled code can overflow or wrap.  Byte strings are lists of Nat.
  Protobuf serialization of external message schemas is modelled as an
  injective token-level encoding (the schemas themselves are out of scope for
  bit-exactness per the spec).
-/

/-- View of an Except value as a sum, for deciding equality. -/
def exceptToSum : Except ε α → ε ⊕ α
  | .error e => .inl e
  | .ok a => .inr a

instance {ε α : Type} [DecidableEq ε] [DecidableEq α] : DecidableEq (Except ε α) :=
  fun x y =>
    decidable_of_iff (exceptToSum x = exceptToSum y)
      (by cases x <;> cases y <;> simp [exceptToSum])

namespace Privdata

/-- A byte string (Go []byte). -/
abbrev Bytes := List Nat

/-- A content hash value (Go []byte produced by SHA256). -/
abbrev Hash := List Nat

/-- One collection's private read-write set
(rwset.CollectionPvtReadWriteSet: CollectionName, Rwset). -/
structure CollectionPvtReadWriteSet where
  CollectionName : String
  Rwset : Bytes
deriving DecidableEq, Repr

/-- One namespace's private read-write sets
(rwset.NsPvtReadWriteSet: Namespace, CollectionPvtRwset). -/
structure NsPvtReadWriteSet where
  Namespace : String
  CollectionPvtRwset : List CollectionPvtReadWriteSet
deriving DecidableEq, Repr

/-- A transaction's private read-write set tree
(rwset.TxPvtReadWriteSet: DataModel, NsPvtRwset). -/
structure TxPvtReadWriteSet where
  DataModel : Nat
  NsPvtRwset : List NsPvtReadWriteSet
deriving DecidableEq, Repr

/-- Private data of one transaction position inside a block
(ledger.TxPvtData: SeqInBlock, WriteSet).  The write set is a nilable
pointer in the source, hence an Option here. -/
structure TxPvtData where
  SeqInBlock : Nat
  WriteSet : Option TxPvtReadWriteSet
deriving DecidableEq, Repr

/-- A serialized token: the unit of the modelled wire encoding.  Protobuf
byte-level framing is out of scope (generated message schemas are treated as
plain data per the spec), so serialization is modelled at token granularity;
the encoding below is injective and order-preserving, which is all the
codec claims depend on. -/
inductive Tok where
  | nat (n : Nat)
  | str (s : String)
  | bytes (b : Bytes)
deriving DecidableEq, Repr

/-- Modelled from the spec: the token encoding of one collection entry inside
a serialized TxPvtReadWriteSet (the codec implementation is absent from the
tree; §4.2 requires only an order-preserving invertible encoding). -/
def encCol (c : CollectionPvtReadWriteSet) : List Tok :=
  [.str c.CollectionName, .bytes c.Rwset]

/-- Modelled from the spec: the token encoding of one namespace entry,
count-prefixing its collection list. -/
def encNs (n : NsPvtReadWriteSet) : List Tok :=
  .str n.Namespace :: .nat n.CollectionPvtRwset.length ::
    n.CollectionPvtRwset.flatMap encCol

/-- Modelled from the spec: the token encoding of a whole TxPvtReadWriteSet,
count-prefixing its namespace list. -/
def encWS (ws : TxPvtReadWriteSet) : List Tok :=
  .nat ws.DataModel :: .nat ws.NsPvtRwset.length :: ws.NsPvtRwset.flatMap encNs

/-- Decoder for one collection entry, returning the remaining tokens. -/
def decCol : List Tok → Option (CollectionPvtReadWriteSet × List Tok)
  | .str nm :: .bytes b :: rest => some ({ CollectionName := nm, Rwset := b }, rest)
  | _ => none

/-- Decode a count-known list of items with the given item decoder. -/
def decN (dec : List Tok → Option (α × List Tok)) :
    Nat → List Tok → Option (List α × List Tok)
  | 0, l => some ([], l)
  | n + 1, l =>
    match dec l with
    | none => none
    | some (a, rest) =>
      match decN dec n rest with
      | none => none
      | some (as, rest2) => some (a :: as, rest2)

/-- Decoder for one namespace entry. -/
def decNs : List Tok → Option (NsPvtReadWriteSet × List Tok)
  | .str nm :: .nat k :: rest =>
    match decN decCol k rest with
    | none => none
    | some (cs, rest2) => some ({ Namespace := nm, CollectionPvtRwset := cs }, rest2)
  | _ => none

/-- Decoder for a whole TxPvtReadWriteSet; must consume every token, as
proto.Unmarshal rejects trailing garbage. -/
def decWS : List Tok → Option TxPvtReadWriteSet
  | .nat dm :: .nat k :: rest =>
    match decN decNs k rest with
    | some (nss, []) => some { DataModel := dm, NsPvtRwset := nss }
    | _ => none
  | _ => none

/-- Modelled from the spec: proto.Marshal over a nilable TxPvtReadWriteSet
pointer; marshalling a nil message fails, which is what the repository's
TestPvtDataCollections_FailMarshalingWriteSet exercises. -/
def protoMarshalWS : Option TxPvtReadWriteSet → Except String (List Tok)
  | none => .error "proto: Marshal called with nil"
  | some ws => .ok (encWS ws)

/-- Modelled from the spec: the gossip PvtDataPayload wrapper pairing the
transaction's sequence-in-block with the serialized write set. -/
def encPayload (seqInBlock : Nat) (inner : List Tok) : List Tok :=
  .nat seqInBlock :: inner

/-- The malformed-payload message of Marshal, with its doubled-l spelling
exactly as the repository's test pins it. -/
def mallformedMsg (i : Nat) : String :=
  "Mallformed private data payload, rwset index " ++ toString i ++ " is nil"

/-- The marshal-failure message of Marshal, identifying the zero-based index
and the underlying cause. -/
def couldNotMarshalMsg (i : Nat) (cause : String) : String :=
  "Could not marshal private rwset index " ++ toString i ++ ": " ++ cause

/-- Modelled from the spec: §4.2 Marshal of a PvtDataCollections sequence (the
implementation is absent from the tree; only its tests are present).  The
loop walks the sequence with its zero-based index; the malformed-payload
branch fires on a nil element and carries the exact message the repository's
TestPvtDataCollections_FailOnEmptyPayload pins (including its doubled-l
spelling), and a write set whose serialization fails (a nil write set
included) yields the marshal error the repository's
TestPvtDataCollections_FailMarshalingWriteSet pins. -/
def marshalGo : Nat → List (Option TxPvtData) → Except String (List (List Tok))
  | _, [] => .ok []
  | i, none :: _ => .error (mallformedMsg i)
  | i, some each :: rest =>
    match protoMarshalWS each.WriteSet with
    | .error cause => .error (couldNotMarshalMsg i cause)
    | .ok pvtBytes =>
      match marshalGo (i + 1) rest with
      | .error e => .error e
      | .ok tl => .ok (encPayload each.SeqInBlock pvtBytes :: tl)

/-- A PvtDataCollections value: an ordered sequence of nilable TxPvtData
pointers (Go []*ledger.TxPvtData). -/
abbrev PvtDataCollections := List (Option TxPvtData)

/-- Modelled from the spec: PvtDataCollections.Marshal, encoding the sequence
one element at a time starting at index 0. -/
def Marshal (us : PvtDataCollections) : Except String (List (List Tok)) :=
  marshalGo 0 us

/-- Modelled from the spec: unmarshalling of one serialized element,
recovering the sequence-in-block tag and the write set. -/
def protoUnmarshalElem (bts : List Tok) : Except String TxPvtData :=
  match bts with
  | .nat seq :: rest =>
    match decWS rest with
    | some ws => .ok { SeqInBlock := seq, WriteSet := some ws }
    | none => .error "proto: cannot unmarshal private rwset"
  | _ => .error "proto: cannot unmarshal payload"

/-- Modelled from the spec: §4.2 Unmarshal, the inverse of Marshal,
reconstructing the sequence in the same order. -/
def Unmarshal : List (List Tok) → Except String PvtDataCollections
  | [] => .ok []
  | d :: ds =>
    match protoUnmarshalElem d with
    | .error e => .error e
    | .ok t =>
      match Unmarshal ds with
      | .error e => .error e
      | .ok tl => .ok (some t :: tl)

/-- A well-formed sequence element: a non-nil TxPvtData with a non-nil
write set. -/
def wfElem : Option TxPvtData → Bool
  | some t => t.WriteSet.isSome
  | none => false

theorem decCol_encCol (c : CollectionPvtReadWriteSet) (r : List Tok) :
    decCol (encCol c ++ r) = some (c, r) := rfl

theorem decN_flatMap {α : Type} (dec : List Tok → Option (α × List Tok))
    (enc : α → List Tok) (hitem : ∀ a r, dec (enc a ++ r) = some (a, r)) :
    ∀ (items : List α) (rest : List Tok),
      decN dec items.length (items.flatMap enc ++ rest) = some (items, rest) := by
  intro items
  induction items with
  | nil => intro rest; rfl
  | cons a as ih =>
    intro rest
    simp only [List.flatMap_cons, List.length_cons, List.append_assoc]
    rw [decN, hitem a (as.flatMap enc ++ rest)]
    simp [ih rest]

theorem decNs_encNs (n : NsPvtReadWriteSet) (r : List Tok) :
    decNs (encNs n ++ r) = some (n, r) := by
  simp only [encNs, List.cons_append]
  rw [decNs, decN_flatMap decCol encCol decCol_encCol]

theorem decWS_encWS (ws : TxPvtReadWriteSet) : decWS (encWS ws) = some ws := by
  simp only [encWS]
  rw [decWS, show ws.NsPvtRwset.flatMap encNs = ws.NsPvtRwset.flatMap encNs ++ [] by
    simp, decN_flatMap decNs encNs decNs_encNs]

theorem protoUnmarshalElem_enc (seq : Nat) (ws : TxPvtReadWriteSet) :
    protoUnmarshalElem (encPayload seq (encWS ws)) =
      .ok { SeqInBlock := seq, WriteSet := some ws } := by
  rw [encPayload, protoUnmarshalElem, decWS_encWS]

theorem marshalGo_roundtrip (us : PvtDataCollections) (h : us.all wfElem = true) :
    ∀ i : Nat, ∃ bs, marshalGo i us = .ok bs ∧ Unmarshal bs = .ok us := by
  induction us with
  | nil => intro i; exact ⟨[], rfl, rfl⟩
  | cons e rest ih =>
    intro i
    simp only [List.all_cons, Bool.and_eq_true] at h
    obtain ⟨he, hrest⟩ := h
    match e, he with
    | some t, he =>
      simp only [wfElem, Option.isSome_iff_exists] at he
      obtain ⟨ws, hws⟩ := he
      obtain ⟨tl, htl, hun⟩ := ih hrest (i + 1)
      refine ⟨encPayload t.SeqInBlock (encWS ws) :: tl, ?_, ?_⟩
      · rw [marshalGo, hws, protoMarshalWS, htl]
      · rw [Unmarshal, protoUnmarshalElem_enc, hun]
        have : ({ SeqInBlock := t.SeqInBlock, WriteSet := some ws } : TxPvtData) = t := by
          cases t; simp_all
        rw [this]

theorem marshalGo_append_error (pre : PvtDataCollections) (hpre : pre.all wfElem = true) :
    ∀ (i : Nat) (rest : PvtDataCollections) (e : String),
      marshalGo (i + pre.length) rest = .error e → marshalGo i (pre ++ rest) = .error e := by
  induction pre with
  | nil => intro i rest e h; simpa using h
  | cons x pre ih =>
    intro i rest e h
    simp only [List.all_cons, Bool.and_eq_true] at hpre
    obtain ⟨hx, hpre⟩ := hpre
    match x, hx with
    | some t, hx =>
      simp only [wfElem, Option.isSome_iff_exists] at hx
      obtain ⟨ws, hws⟩ := hx
      have h1 : marshalGo (i + 1 + pre.length) rest = .error e := by
        have harith : i + (some t :: pre).length = i + 1 + pre.length := by
          simp only [List.length_cons]; omega
        rw [harith] at h
        exact h
      have h2 := ih hpre (i + 1) rest e h1
      simp only [List.cons_append]
      rw [marshalGo, hws, protoMarshalWS, h2]

/-- Builder for a collection entry, mirroring the test factories. -/
def mkCol (nm : String) (rws : Bytes) : CollectionPvtReadWriteSet :=
  { CollectionName := nm, Rwset := rws }

/-- Builder for a namespace entry, mirroring the test factories. -/
def mkNs (nm : String) (cols : List CollectionPvtReadWriteSet) : NsPvtReadWriteSet :=
  { Namespace := nm, CollectionPvtRwset := cols }

/-- Builder for a write-set tree, mirroring the test factories. -/
def mkWS (nss : List NsPvtReadWriteSet) : TxPvtReadWriteSet :=
  { DataModel := 0, NsPvtRwset := nss }

/-- Builder for one transaction's private data, mirroring the test factories. -/
def mkTx (seq : Nat) (ws : Option TxPvtReadWriteSet) : TxPvtData :=
  { SeqInBlock := seq, WriteSet := ws }

/-- The well-formed two-element multi-namespace sequence that the
repository's round-trip tests marshal and unmarshal. -/
def sampleCollection : PvtDataCollections :=
  [ some (mkTx 1 (some (mkWS [mkNs "ns1" [mkCol "secretCollection" [1, 2, 3, 4, 5, 6, 7]]]))),
    some (mkTx 2 (some (mkWS [mkNs "ns1" [mkCol "secretCollection" [42, 42, 42, 42, 42, 42, 42]],
      mkNs "ns2" [mkCol "otherCollection" [10, 9, 8, 7, 6, 5, 4, 3, 2, 1]]]))) ]

/-- C6 counterexample: the claim's error messages do not match the code.  At
the repository's own test input whose single element has a nil write set,
Marshal fails with the marshal error "Could not marshal private rwset index
0: ...", not with the claimed "Malformed private data payload, rwset index 0
is nil"; and at the test input whose second element is nil, the message is
spelled "Mallformed" (doubled l), not "Malformed". -/
theorem marshal_message_counterexample :
    (Marshal [some { SeqInBlock := 1, WriteSet := none }] =
        .error "Could not marshal private rwset index 0: proto: Marshal called with nil" ∧
      "Could not marshal private rwset index 0: proto: Marshal called with nil" ≠
        "Malformed private data payload, rwset index 0 is nil") ∧
    (Marshal [some (mkTx 1 (some (mkWS [mkNs "ns1" [mkCol "secretCollection" [1, 2, 3, 4, 5, 6, 7]]]))),
        none ] =
        .error "Mallformed private data payload, rwset index 1 is nil" ∧
      "Mallformed private data payload, rwset index 1 is nil" ≠
        "Malformed private data payload, rwset index 1 is nil") :=
  ⟨⟨rfl, by decide⟩, ⟨rfl, by decide⟩⟩

/-- C6 (amended): for every sequence, Marshal fails with the message
"Mallformed private data payload, rwset index i is nil" (doubled-l spelling,
zero-based index) when element i is the first offender and is a nil element,
and with "Could not marshal private rwset index i: cause" when element i is
the first offender and marshalling its write set fails (a nil write set
included); in both cases it fails fast, returning an error and no partially
serialized output. -/
theorem marshal_error_messages (pre1 post1 pre2 post2 : PvtDataCollections)
    (t : TxPvtData) (h1 : pre1.all wfElem = true) (h2 : pre2.all wfElem = true)
    (ht : t.WriteSet = none) :
    Marshal (pre1 ++ none :: post1) = .error (mallformedMsg pre1.length) ∧
    Marshal (pre2 ++ some t :: post2) =
      .error (couldNotMarshalMsg pre2.length "proto: Marshal called with nil") := by
  constructor
  · apply marshalGo_append_error pre1 h1 0
    rw [marshalGo]
    simp
  · apply marshalGo_append_error pre2 h2 0
    rw [marshalGo, ht, protoMarshalWS]
    simp

/-- C6 witness: the amended statement at the repository's two test inputs. -/
theorem marshal_error_messages_witness :
    Marshal ([some (mkTx 1 (some (mkWS [mkNs "ns1" [mkCol "secretCollection" [1, 2, 3, 4, 5, 6, 7]]])))]
        ++ none :: []) = .error (mallformedMsg 1) ∧
    Marshal (([] : PvtDataCollections) ++ some (mkTx 1 none) :: []) =
      .error (couldNotMarshalMsg 0 "proto: Marshal called with nil") := by
  have h := marshal_error_messages
    [some (mkTx 1 (some (mkWS [mkNs "ns1" [mkCol "secretCollection" [1, 2, 3, 4, 5, 6, 7]]])))]
    [] [] [] (mkTx 1 none) (by decide) (by decide) rfl
  exact ⟨h.1, h.2⟩

/-- C7: for every well-formed PvtDataCollections value (no nil elements, no
nil write sets), Unmarshal applied to the output of Marshal reconstructs the
original sequence, element order preserved. -/
theorem marshal_unmarshal_roundtrip (us : PvtDataCollections)
    (h : us.all wfElem = true) :
    ∃ bs, Marshal us = .ok bs ∧ Unmarshal bs = .ok us :=
  marshalGo_roundtrip us h 0

/-- C7 witness: the round trip at the repository's two-element
multi-namespace test sequence. -/
theorem marshal_unmarshal_roundtrip_witness :
    sampleCollection.all wfElem = true ∧
      ∃ bs, Marshal sampleCollection = .ok bs ∧ Unmarshal bs = .ok sampleCollection :=
  ⟨by decide, marshal_unmarshal_roundtrip sampleCollection (by decide)⟩

/-- A digest identifying one required private write set
(proto.PvtDataDigest: TxId, Namespace, Collection, BlockSeq, SeqInBlock). -/
structure PvtDataDigest where
  TxId : String
  Namespace : String
  Collection : String
  BlockSeq : Nat
  SeqInBlock : Nat
deriving DecidableEq, Repr

/-- A fetched element: a digest plus its raw payload chunks
(proto.PvtDataElement). -/
structure PvtDataElement where
  Digest : PvtDataDigest
  Payload : List Bytes
deriving DecidableEq, Repr

/-- A block header carrying the block's sequence number
(common.BlockHeader.Number). -/
structure BlockHeader where
  Number : Nat
deriving DecidableEq, Repr

/-- One transaction of a block, already parsed down to what reconciliation
reads from it: its transaction id and, per namespace/collection, the hashed
commitment of the private content (the test block factory embeds exactly
these through the endorsement envelope layers). -/
structure BlockTxn where
  txID : String
  commitments : List (String × String × Hash)
deriving DecidableEq, Repr

/-- A block: header plus its ordered transactions (common.Block, with the
envelope/payload wire layers already parsed as in the test factory). -/
structure Block where
  Header : BlockHeader
  Txns : List BlockTxn
deriving DecidableEq, Repr

/-- The unit handed to the committer (ledger.BlockAndPvtData): the block plus
a mapping seqInBlock to TxPvtData, modelled as an association list. -/
structure BlockAndPvtData where
  Block : Privdata.Block
  BlockPvtData : List (Nat × TxPvtData)
deriving DecidableEq, Repr

/-- One required triple of a block: its identifying digest together with the
hashed commitment embedded in the block for it. -/
structure Requirement where
  digest : PvtDataDigest
  commitment : Hash
deriving DecidableEq, Repr

def mkDigest (tx ns c : String) (bseq sib : Nat) : PvtDataDigest :=
  { TxId := tx, Namespace := ns, Collection := c, BlockSeq := bseq, SeqInBlock := sib }

/-- First-occurrence duplicate removal, keeping the original order. -/
def dedupFirst [DecidableEq α] : List α → List α
  | [] => []
  | a :: as => a :: (dedupFirst as).filter (fun b => decide (b ≠ a))

theorem mem_dedupFirst [DecidableEq α] (x : α) :
    ∀ l : List α, x ∈ dedupFirst l ↔ x ∈ l := by
  intro l
  induction l with
  | nil => simp [dedupFirst]
  | cons a as ih =>
    rw [dedupFirst]
    simp only [List.mem_cons, List.mem_filter, decide_eq_true_eq, ih]
    by_cases hx : x = a <;> simp [hx]

theorem nodup_dedupFirst [DecidableEq α] : ∀ l : List α, (dedupFirst l).Nodup := by
  intro l
  induction l with
  | nil => simp [dedupFirst]
  | cons a as ih =>
    rw [dedupFirst]
    refine List.nodup_cons.mpr ⟨?_, ih.filter _⟩
    simp

/-- Modelled from the spec: step 1 of StoreBlock (coordinator implementation
absent from the tree) — scan the block and build the full required set of
(txID, namespace, collection) triples carrying a hashed private commitment,
each paired with that commitment; seqInBlock is the transaction's position
and blockSeq the block's header number. -/
def requiredOfBlock (b : Block) : List Requirement :=
  b.Txns.enum.flatMap (fun p =>
    p.2.commitments.map (fun c =>
      { digest := mkDigest p.2.txID c.1 c.2.1 b.Header.Number p.1, commitment := c.2.2 }))

/-- Look up the raw private write set of one namespace/collection inside a
write-set tree. -/
def wsLookup (ws : TxPvtReadWriteSet) (ns c : String) : Option Bytes :=
  ((ws.NsPvtRwset.filter (fun n => n.Namespace == ns)).flatMap
      (fun n => n.CollectionPvtRwset)).findSome?
    (fun col => if col.CollectionName == c then some col.Rwset else none)

/-- Modelled from the spec: step 2 of StoreBlock — a requirement is satisfied
by the supplied pvtData only when an entry at the right transaction position
carries content whose hash matches the block's commitment; mismatching
content is treated as absent. -/
def suppliedResolve (hashF : Bytes → Hash) (pvt : List TxPvtData) (r : Requirement) :
    Option Bytes :=
  pvt.findSome? (fun t =>
    if t.SeqInBlock == r.digest.SeqInBlock then
      match t.WriteSet with
      | none => none
      | some ws =>
        match wsLookup ws r.digest.Namespace r.digest.Collection with
        | none => none
        | some bts => if hashF bts = r.commitment then some bts else none
    else none)

/-- Modelled from the spec: step 3 resolution against one transaction's
transient-store results — any returned write set whose content hash matches
the commitment satisfies the requirement. -/
def storeResolve (hashF : Bytes → Hash) (results : List TxPvtReadWriteSet)
    (r : Requirement) : Option Bytes :=
  results.findSome? (fun ws =>
    match wsLookup ws r.digest.Namespace r.digest.Collection with
    | none => none
    | some bts => if hashF bts = r.commitment then some bts else none)

/-- The namespace-to-collections filter of a transient-store query
(ledger.PvtNsCollFilter), restricted to the given requirements. -/
def mkFilter (rs : List Requirement) : List (String × List String) :=
  (dedupFirst (rs.map (fun r => r.digest.Namespace))).map (fun ns =>
    (ns, dedupFirst ((rs.filter (fun r => r.digest.Namespace == ns)).map
      (fun r => r.digest.Collection))))

/-- The collaborators of the coordinator (§6): the content-hash function, the
Transient Store (a query answered with none models a store or cursor error),
the remote Fetcher, and the Committer (a commit answered with some e models a
rejected commit). -/
structure Collaborators where
  hashF : Bytes → Hash
  store : String → List (String × List String) → Option (List TxPvtReadWriteSet)
  fetch : List PvtDataDigest → Except String (List PvtDataElement)
  committer : BlockAndPvtData → Option String

/-- One observable collaborator invocation of a StoreBlock run. -/
inductive Event where
  | storeQuery (txID : String) (filter : List (String × List String))
  | fetchCall (ds : List PvtDataDigest)
  | persistCall (txID : String) (ws : TxPvtReadWriteSet)
  | commitCall (bp : BlockAndPvtData)
deriving DecidableEq, Repr

def Event.isFetch : Event → Bool
  | .fetchCall _ => true
  | _ => false

def Event.isCommit : Event → Bool
  | .commitCall _ => true
  | _ => false

/-- The requirements of the block still unsatisfied after the supplied
pvtData pass (step 2). -/
def missingAfterSuppliedOf (co : Collaborators) (b : Block) (pvt : List TxPvtData) :
    List Requirement :=
  (requiredOfBlock b).filter (fun r => (suppliedResolve co.hashF pvt r).isNone)

/-- The transaction ids still owning missing requirements, in block order,
each once. -/
def txIDsOf (co : Collaborators) (b : Block) (pvt : List TxPvtData) : List String :=
  dedupFirst ((missingAfterSuppliedOf co b pvt).map (fun r => r.digest.TxId))

/-- The still-missing requirements of one transaction id. -/
def txMissingOf (co : Collaborators) (b : Block) (pvt : List TxPvtData) (tid : String) :
    List Requirement :=
  (missingAfterSuppliedOf co b pvt).filter (fun r => r.digest.TxId == tid)

/-- The transient-store queries a StoreBlock run issues: one per transaction
id with missing requirements, with the filter restricted to that
transaction's still-missing namespaces/collections (step 3). -/
def storeEventsOf (co : Collaborators) (b : Block) (pvt : List TxPvtData) : List Event :=
  (txIDsOf co b pvt).map (fun tid => .storeQuery tid (mkFilter (txMissingOf co b pvt tid)))

/-- The requirements resolved from the supplied pvtData, with their content. -/
def fromSuppliedOf (co : Collaborators) (b : Block) (pvt : List TxPvtData) :
    List (Requirement × Bytes) :=
  (requiredOfBlock b).filterMap (fun r =>
    (suppliedResolve co.hashF pvt r).map (fun bts => (r, bts)))

/-- Modelled from the spec: step 3 for one transaction — query the store with
the restricted filter; a store or cursor error (none) resolves nothing and is
not fatal. -/
def storeResolvedTx (co : Collaborators) (txMissing : List Requirement) (tid : String) :
    List (Requirement × Bytes) :=
  match co.store tid (mkFilter txMissing) with
  | none => []
  | some results =>
    txMissing.filterMap (fun r => (storeResolve co.hashF results r).map (fun bts => (r, bts)))

/-- The requirements resolved from the Transient Store across the block. -/
def fromStoreOf (co : Collaborators) (b : Block) (pvt : List TxPvtData) :
    List (Requirement × Bytes) :=
  ((txIDsOf co b pvt).map (fun tid => storeResolvedTx co (txMissingOf co b pvt tid) tid)).flatten

/-- The requirements still missing after the Transient Store pass. -/
def missingAfterStoreOf (co : Collaborators) (b : Block) (pvt : List TxPvtData) :
    List Requirement :=
  (missingAfterSuppliedOf co b pvt).filter
    (fun r => (fromStoreOf co b pvt).all (fun p => decide (¬ p.1 = r)))

/-- The digests of the batched fetch request: every requirement still missing
across the whole block (step 4). -/
def fetchDigestsOf (co : Collaborators) (b : Block) (pvt : List TxPvtData) :
    List PvtDataDigest :=
  (missingAfterStoreOf co b pvt).map (fun r => r.digest)

/-- A fetched element's content: its payload chunks concatenated (§3). -/
def elemContent (el : PvtDataElement) : Bytes := el.Payload.flatten

/-- Modelled from the spec: step 5 — match every still-missing requirement
against the fetched elements and validate each element's content hash against
the block commitment; an unsupplied digest or a hash mismatch fails the whole
operation. -/
def resolveFetched (hashF : Bytes → Hash) :
    List Requirement → List PvtDataElement → Except String (List (Requirement × Bytes))
  | [], _ => .ok []
  | r :: rs, elems =>
    match elems.find? (fun el => decide (el.Digest = r.digest)) with
    | none => .error "could not fetch all missing private data from peers"
    | some el =>
      if hashF (elemContent el) = r.commitment then
        match resolveFetched hashF rs elems with
        | .error e => .error e
        | .ok tl => .ok ((r, elemContent el) :: tl)
      else .error "fetched private data does not match the block commitment"

/-- The write-set tree under which one fetched element is persisted back into
the Transient Store (step 6). -/
def wsOfElement (el : PvtDataElement) : TxPvtReadWriteSet :=
  mkWS [mkNs el.Digest.Namespace [mkCol el.Digest.Collection (elemContent el)]]

/-- The persist calls of step 6, one per fetched element, in response order. -/
def persistEventsOf (elems : List PvtDataElement) : List Event :=
  elems.map (fun el => .persistCall el.Digest.TxId (wsOfElement el))

/-- Modelled from the spec: step 7 write-set grouping — the resolved contents
of one transaction grouped by namespace, first-occurrence order. -/
def buildWS (rs : List (Requirement × Bytes)) : TxPvtReadWriteSet :=
  mkWS ((dedupFirst (rs.map (fun p => p.1.digest.Namespace))).map (fun ns =>
    mkNs ns ((rs.filter (fun p => p.1.digest.Namespace == ns)).map
      (fun p => mkCol p.1.digest.Collection p.2))))

/-- Modelled from the spec: step 7 — merge all resolved triples into a single
BlockAndPvtData, grouped by seqInBlock. -/
def mergeBlockAndPvt (b : Block) (rs : List (Requirement × Bytes)) : BlockAndPvtData where
  Block := b
  BlockPvtData :=
    (dedupFirst (rs.map (fun p => p.1.digest.SeqInBlock))).map (fun i =>
      (i, mkTx i (some (buildWS (rs.filter (fun p => p.1.digest.SeqInBlock == i))))))

/-- Modelled from the spec: §4.1 StoreBlock (the coordinator implementation is
absent from the tree; only its test suite is present).  Runs the
reconciliation algorithm of steps 1-8 against pure collaborator oracles and
returns the outcome together with the ordered trace of collaborator
invocations; the batched fetch request, the per-transaction store filters and
the persist-before-commit ordering follow what TestCoordinatorStoreBlock
pins. -/
def StoreBlock (co : Collaborators) (b : Block) (pvt : List TxPvtData) :
    Except String Unit × List Event :=
  if missingAfterStoreOf co b pvt = [] then
    match co.committer (mergeBlockAndPvt b (fromSuppliedOf co b pvt ++ fromStoreOf co b pvt)) with
    | none =>
      (.ok (), storeEventsOf co b pvt ++
        [.commitCall (mergeBlockAndPvt b (fromSuppliedOf co b pvt ++ fromStoreOf co b pvt))])
    | some e =>
      (.error e, storeEventsOf co b pvt ++
        [.commitCall (mergeBlockAndPvt b (fromSuppliedOf co b pvt ++ fromStoreOf co b pvt))])
  else
    match co.fetch (fetchDigestsOf co b pvt) with
    | .error e =>
      (.error e, storeEventsOf co b pvt ++ [.fetchCall (fetchDigestsOf co b pvt)])
    | .ok elems =>
      match resolveFetched co.hashF (missingAfterStoreOf co b pvt) elems with
      | .error e =>
        (.error e, storeEventsOf co b pvt ++ [.fetchCall (fetchDigestsOf co b pvt)])
      | .ok fromFetch =>
        match co.committer (mergeBlockAndPvt b
            (fromSuppliedOf co b pvt ++ fromStoreOf co b pvt ++ fromFetch)) with
        | none =>
          (.ok (), storeEventsOf co b pvt ++ [.fetchCall (fetchDigestsOf co b pvt)]
            ++ persistEventsOf elems
            ++ [.commitCall (mergeBlockAndPvt b
                  (fromSuppliedOf co b pvt ++ fromStoreOf co b pvt ++ fromFetch))])
        | some e =>
          (.error e, storeEventsOf co b pvt ++ [.fetchCall (fetchDigestsOf co b pvt)]
            ++ persistEventsOf elems
            ++ [.commitCall (mergeBlockAndPvt b
                  (fromSuppliedOf co b pvt ++ fromStoreOf co b pvt ++ fromFetch))])

/-- Modelled from the spec: the Committer's ledger surface for the retry
scenario (§3: a BlockAndPvtData is handed to the Committer exactly once per
block height — no repeated commits for the same height; §5: ledger height
advances monotonically).  A commit of a height not yet on the ledger succeeds
and appends the value; a commit at an already-committed height is rejected
and changes nothing. -/
def ledgerCommit (st : List BlockAndPvtData) (bp : BlockAndPvtData) :
    Option String × List BlockAndPvtData :=
  if st.any (fun q => q.Block.Header.Number == bp.Block.Header.Number) then
    (some "block already committed", st)
  else (none, st ++ [bp])

/-- The collaborators with their Committer backed by the given ledger
contents. -/
def withLedger (co : Collaborators) (st : List BlockAndPvtData) : Collaborators :=
  { co with committer := fun bp => (ledgerCommit st bp).1 }

/-- Replay the commit calls of a trace against the ledger: every commit call
updates the ledger exactly as the ledger-backed Committer did during the
run. -/
def ledgerAfterRun : List BlockAndPvtData → List Event → List BlockAndPvtData
  | st, [] => st
  | st, .commitCall bp :: es => ledgerAfterRun (ledgerCommit st bp).2 es
  | st, _ :: es => ledgerAfterRun st es

/-- The first StoreBlock call of the retry scenario, against the empty
ledger. -/
def firstRunOf (co : Collaborators) (b : Block) (pvt : List TxPvtData) :
    Except String Unit × List Event :=
  StoreBlock (withLedger co []) b pvt

/-- The ledger contents after the first call. -/
def ledger1Of (co : Collaborators) (b : Block) (pvt : List TxPvtData) :
    List BlockAndPvtData :=
  ledgerAfterRun [] (firstRunOf co b pvt).2

/-- The second, retried StoreBlock call, against the ledger the first call
left behind; the store and fetcher are the same pure oracles, which is the
spec's premise that they answer consistently across the retry. -/
def secondRunOf (co : Collaborators) (b : Block) (pvt : List TxPvtData) :
    Except String Unit × List Event :=
  StoreBlock (withLedger co (ledger1Of co b pvt)) b pvt

/-- The ledger contents after both calls. -/
def ledger2Of (co : Collaborators) (b : Block) (pvt : List TxPvtData) :
    List BlockAndPvtData :=
  ledgerAfterRun (ledger1Of co b pvt) (secondRunOf co b pvt).2

/-- Modelled from the spec: calling StoreBlock twice with the same block, the
same supplied private data, consistently answering store/fetcher oracles and
the ledger-backed Committer.  Returns both outcomes, the combined trace and
the final ledger contents. -/
def StoreBlockTwiceLedger (co : Collaborators) (b : Block) (pvt : List TxPvtData) :
    (Except String Unit × Except String Unit) × List Event × List BlockAndPvtData :=
  (((firstRunOf co b pvt).1, (secondRunOf co b pvt).1),
    (firstRunOf co b pvt).2 ++ (secondRunOf co b pvt).2,
    ledger2Of co b pvt)

theorem hashF_withLedger (co : Collaborators) (st : List BlockAndPvtData) :
    (withLedger co st).hashF = co.hashF := rfl

theorem fetch_withLedger (co : Collaborators) (st : List BlockAndPvtData) :
    (withLedger co st).fetch = co.fetch := rfl

theorem committer_withLedger (co : Collaborators) (st : List BlockAndPvtData)
    (bp : BlockAndPvtData) :
    (withLedger co st).committer bp = (ledgerCommit st bp).1 := rfl

theorem missingAfterStore_withLedger (co : Collaborators) (st : List BlockAndPvtData)
    (b : Block) (pvt : List TxPvtData) :
    missingAfterStoreOf (withLedger co st) b pvt = missingAfterStoreOf co b pvt := rfl

theorem fromSupplied_withLedger (co : Collaborators) (st : List BlockAndPvtData)
    (b : Block) (pvt : List TxPvtData) :
    fromSuppliedOf (withLedger co st) b pvt = fromSuppliedOf co b pvt := rfl

theorem fromStore_withLedger (co : Collaborators) (st : List BlockAndPvtData)
    (b : Block) (pvt : List TxPvtData) :
    fromStoreOf (withLedger co st) b pvt = fromStoreOf co b pvt := rfl

theorem fetchDigests_withLedger (co : Collaborators) (st : List BlockAndPvtData)
    (b : Block) (pvt : List TxPvtData) :
    fetchDigestsOf (withLedger co st) b pvt = fetchDigestsOf co b pvt := rfl

theorem storeEvents_withLedger (co : Collaborators) (st : List BlockAndPvtData)
    (b : Block) (pvt : List TxPvtData) :
    storeEventsOf (withLedger co st) b pvt = storeEventsOf co b pvt := rfl

theorem storeEvents_no_fetch (co : Collaborators) (b : Block) (pvt : List TxPvtData) :
    (storeEventsOf co b pvt).filter Event.isFetch = [] := by
  rw [List.filter_eq_nil_iff]
  intro e he
  simp only [storeEventsOf, List.mem_map] at he
  obtain ⟨tid, _, rfl⟩ := he
  simp [Event.isFetch]

theorem storeEvents_no_commit (co : Collaborators) (b : Block) (pvt : List TxPvtData) :
    (storeEventsOf co b pvt).filter Event.isCommit = [] := by
  rw [List.filter_eq_nil_iff]
  intro e he
  simp only [storeEventsOf, List.mem_map] at he
  obtain ⟨tid, _, rfl⟩ := he
  simp [Event.isCommit]

theorem persistEvents_no_fetch (elems : List PvtDataElement) :
    (persistEventsOf elems).filter Event.isFetch = [] := by
  rw [List.filter_eq_nil_iff]
  intro e he
  simp only [persistEventsOf, List.mem_map] at he
  obtain ⟨el, _, rfl⟩ := he
  simp [Event.isFetch]

theorem persistEvents_no_commit (elems : List PvtDataElement) :
    (persistEventsOf elems).filter Event.isCommit = [] := by
  rw [List.filter_eq_nil_iff]
  intro e he
  simp only [persistEventsOf, List.mem_map] at he
  obtain ⟨el, _, rfl⟩ := he
  simp [Event.isCommit]

theorem storeBlock_fetch_trace (co : Collaborators) (b : Block) (pvt : List TxPvtData)
    (elems : List PvtDataElement) (fromFetch : List (Requirement × Bytes))
    (hmiss : missingAfterStoreOf co b pvt ≠ [])
    (helems : co.fetch (fetchDigestsOf co b pvt) = .ok elems)
    (hres : resolveFetched co.hashF (missingAfterStoreOf co b pvt) elems = .ok fromFetch) :
    (StoreBlock co b pvt).2 =
      storeEventsOf co b pvt ++ [.fetchCall (fetchDigestsOf co b pvt)]
        ++ persistEventsOf elems
        ++ [.commitCall (mergeBlockAndPvt b
              (fromSuppliedOf co b pvt ++ fromStoreOf co b pvt ++ fromFetch))] := by
  rw [StoreBlock, if_neg hmiss]
  simp only [helems, hres]
  cases co.committer (mergeBlockAndPvt b
      (fromSuppliedOf co b pvt ++ fromStoreOf co b pvt ++ fromFetch)) <;> simp

theorem storeBlock_fetch_ok (co : Collaborators) (b : Block) (pvt : List TxPvtData)
    (elems : List PvtDataElement) (fromFetch : List (Requirement × Bytes))
    (hmiss : missingAfterStoreOf co b pvt ≠ [])
    (helems : co.fetch (fetchDigestsOf co b pvt) = .ok elems)
    (hres : resolveFetched co.hashF (missingAfterStoreOf co b pvt) elems = .ok fromFetch)
    (hcommit : co.committer (mergeBlockAndPvt b
      (fromSuppliedOf co b pvt ++ fromStoreOf co b pvt ++ fromFetch)) = none) :
    (StoreBlock co b pvt).1 = .ok () := by
  rw [StoreBlock, if_neg hmiss]
  simp only [helems, hres, hcommit]

theorem storeBlock_one_fetch (co : Collaborators) (b : Block) (pvt : List TxPvtData)
    (hmiss : missingAfterStoreOf co b pvt ≠ []) :
    (StoreBlock co b pvt).2.filter Event.isFetch =
      [.fetchCall (fetchDigestsOf co b pvt)] := by
  rw [StoreBlock, if_neg hmiss]
  cases co.fetch (fetchDigestsOf co b pvt) with
  | error e => simp [List.filter_append, storeEvents_no_fetch, Event.isFetch]
  | ok elems =>
    dsimp only
    cases resolveFetched co.hashF (missingAfterStoreOf co b pvt) elems with
    | error e => simp [List.filter_append, storeEvents_no_fetch, Event.isFetch]
    | ok ff =>
      dsimp only
      cases co.committer (mergeBlockAndPvt b
          (fromSuppliedOf co b pvt ++ fromStoreOf co b pvt ++ ff)) <;>
        simp [List.filter_append, storeEvents_no_fetch, persistEvents_no_fetch, Event.isFetch]

theorem txIDs_of_no_missing (co : Collaborators) (b : Block) (pvt : List TxPvtData)
    (h : missingAfterSuppliedOf co b pvt = []) : txIDsOf co b pvt = [] := by
  simp [txIDsOf, h, dedupFirst]

theorem storeEvents_of_no_missing (co : Collaborators) (b : Block) (pvt : List TxPvtData)
    (h : missingAfterSuppliedOf co b pvt = []) : storeEventsOf co b pvt = [] := by
  simp [storeEventsOf, txIDs_of_no_missing co b pvt h]

theorem fromStore_of_no_missing (co : Collaborators) (b : Block) (pvt : List TxPvtData)
    (h : missingAfterSuppliedOf co b pvt = []) : fromStoreOf co b pvt = [] := by
  simp [fromStoreOf, txIDs_of_no_missing co b pvt h]

theorem missingStore_of_no_missing (co : Collaborators) (b : Block) (pvt : List TxPvtData)
    (h : missingAfterSuppliedOf co b pvt = []) : missingAfterStoreOf co b pvt = [] := by
  simp [missingAfterStoreOf, h]

/-- The (seqInBlock, namespace, collection) triple identified by a
requirement. -/
def tripleOfReq (r : Requirement) : Nat × String × String :=
  (r.digest.SeqInBlock, r.digest.Namespace, r.digest.Collection)

/-- The triples of one transaction's write-set tree, tagged with its
sequence-in-block. -/
def triplesOfWS (i : Nat) (ws : TxPvtReadWriteSet) : List (Nat × String × String) :=
  ws.NsPvtRwset.flatMap (fun n =>
    n.CollectionPvtRwset.map (fun c => (i, n.Namespace, c.CollectionName)))

/-- The triples of one BlockPvtData entry. -/
def triplesOfTx (q : Nat × TxPvtData) : List (Nat × String × String) :=
  match q.2.WriteSet with
  | none => []
  | some ws => triplesOfWS q.1 ws

/-- The (seqInBlock, namespace, collection) triples a BlockAndPvtData hands
to the committer. -/
def triplesOfBP (bp : BlockAndPvtData) : List (Nat × String × String) :=
  bp.BlockPvtData.flatMap triplesOfTx

/-- The triples required by a block. -/
def requiredTriples (b : Block) : List (Nat × String × String) :=
  (requiredOfBlock b).map tripleOfReq

theorem mem_triplesOf_buildWS (i : Nat) (rs : List (Requirement × Bytes))
    (t : Nat × String × String) :
    t ∈ triplesOfWS i (buildWS rs) ↔
      ∃ p ∈ rs, t = (i, p.1.digest.Namespace, p.1.digest.Collection) := by
  simp only [triplesOfWS, buildWS, mkWS, mkNs, mkCol, List.mem_flatMap, List.mem_map,
    List.mem_filter, mem_dedupFirst, beq_iff_eq]
  constructor
  · rintro ⟨n, ⟨ns, hns, hn⟩, c, hc, ht⟩
    subst hn
    simp only [List.mem_map, List.mem_filter, beq_iff_eq] at hc
    obtain ⟨p, ⟨hp, hpns⟩, hcol⟩ := hc
    subst hcol
    exact ⟨p, hp, by rw [← ht, hpns]⟩
  · rintro ⟨p, hp, ht⟩
    refine ⟨_, ⟨p.1.digest.Namespace, ⟨p, hp, rfl⟩, rfl⟩, ?_⟩
    refine ⟨_, List.mem_map.mpr ⟨p, List.mem_filter.mpr ⟨hp, by simp⟩, rfl⟩, ?_⟩
    exact ht.symm

theorem mem_triplesOf_merge (b : Block) (rs : List (Requirement × Bytes))
    (t : Nat × String × String) :
    t ∈ triplesOfBP (mergeBlockAndPvt b rs) ↔
      t ∈ rs.map (fun p => tripleOfReq p.1) := by
  simp only [triplesOfBP, mergeBlockAndPvt, List.mem_flatMap, List.mem_map]
  constructor
  · rintro ⟨q, ⟨i, hi, hq⟩, ht⟩
    subst hq
    simp only [triplesOfTx, mkTx] at ht
    rw [mem_triplesOf_buildWS] at ht
    obtain ⟨p, hpf, hteq⟩ := ht
    rw [List.mem_filter] at hpf
    obtain ⟨hp, hpseq⟩ := hpf
    rw [beq_iff_eq] at hpseq
    exact ⟨p, hp, by rw [hteq, tripleOfReq, hpseq]⟩
  · rintro ⟨p, hp, ht⟩
    refine ⟨(p.1.digest.SeqInBlock, mkTx p.1.digest.SeqInBlock (some (buildWS
      (rs.filter (fun q => q.1.digest.SeqInBlock == p.1.digest.SeqInBlock))))), ?_, ?_⟩
    · exact ⟨p.1.digest.SeqInBlock, (mem_dedupFirst _ _).mpr (List.mem_map.mpr ⟨p, hp, rfl⟩), rfl⟩
    · simp only [triplesOfTx, mkTx]
      rw [mem_triplesOf_buildWS]
      exact ⟨p, List.mem_filter.mpr ⟨hp, by simp⟩, by rw [← ht, tripleOfReq]⟩

theorem map_fst_filterMap_resolve {α β : Type} (f : α → Option β) :
    ∀ l : List α, (∀ a ∈ l, (f a).isNone = false) →
      (l.filterMap (fun a => (f a).map (fun bv => (a, bv)))).map Prod.fst = l := by
  intro l
  induction l with
  | nil => intro _; rfl
  | cons a as ih =>
    intro h
    have ha := h a (List.mem_cons_self a as)
    cases hf : f a with
    | none => rw [hf] at ha; simp at ha
    | some bv =>
      simp only [List.filterMap_cons, hf, Option.map_some']
      simp only [List.map_cons]
      rw [ih (fun x hx => h x (List.mem_cons_of_mem a hx))]

theorem fromSupplied_fst_of_no_missing (co : Collaborators) (b : Block)
    (pvt : List TxPvtData) (h : missingAfterSuppliedOf co b pvt = []) :
    (fromSuppliedOf co b pvt).map Prod.fst = requiredOfBlock b := by
  apply map_fst_filterMap_resolve
  intro r hr
  have h2 := List.filter_eq_nil_iff.mp h r hr
  simp only [Bool.not_eq_true] at h2
  exact h2

theorem store_error_fromStore_nil (co : Collaborators) (b : Block) (pvt : List TxPvtData)
    (hstore : ∀ tid f, co.store tid f = none) : fromStoreOf co b pvt = [] := by
  simp [fromStoreOf, storeResolvedTx, hstore]

theorem store_error_missing_unchanged (co : Collaborators) (b : Block) (pvt : List TxPvtData)
    (hstore : ∀ tid f, co.store tid f = none) :
    missingAfterStoreOf co b pvt = missingAfterSuppliedOf co b pvt := by
  simp [missingAfterStoreOf, store_error_fromStore_nil co b pvt hstore]

theorem merge_keys_nodup (b : Block) (rs : List (Requirement × Bytes)) :
    ((mergeBlockAndPvt b rs).BlockPvtData.map Prod.fst).Nodup := by
  have h : (mergeBlockAndPvt b rs).BlockPvtData.map Prod.fst =
      dedupFirst (rs.map (fun p => p.1.digest.SeqInBlock)) := by
    simp [mergeBlockAndPvt, List.map_map, Function.comp_def]
  rw [h]
  exact nodup_dedupFirst _

theorem storeBlock_ok_shape (co : Collaborators) (b : Block) (pvt : List TxPvtData)
    (h : (StoreBlock co b pvt).1 = .ok ()) :
    (missingAfterStoreOf co b pvt = [] ∧
      co.committer (mergeBlockAndPvt b
        (fromSuppliedOf co b pvt ++ fromStoreOf co b pvt)) = none) ∨
    (∃ elems fromFetch, missingAfterStoreOf co b pvt ≠ [] ∧
      co.fetch (fetchDigestsOf co b pvt) = .ok elems ∧
      resolveFetched co.hashF (missingAfterStoreOf co b pvt) elems = .ok fromFetch ∧
      co.committer (mergeBlockAndPvt b
        (fromSuppliedOf co b pvt ++ fromStoreOf co b pvt ++ fromFetch)) = none) := by
  by_cases hm : missingAfterStoreOf co b pvt = []
  · left
    refine ⟨hm, ?_⟩
    cases hc : co.committer (mergeBlockAndPvt b
        (fromSuppliedOf co b pvt ++ fromStoreOf co b pvt)) with
    | none => rfl
    | some e =>
      exfalso
      rw [StoreBlock, if_pos hm] at h
      simp only [hc] at h
      simp at h
  · right
    cases hf : co.fetch (fetchDigestsOf co b pvt) with
    | error e =>
      exfalso
      rw [StoreBlock, if_neg hm] at h
      simp only [hf] at h
      simp at h
    | ok elems =>
      cases hr : resolveFetched co.hashF (missingAfterStoreOf co b pvt) elems with
      | error e =>
        exfalso
        rw [StoreBlock, if_neg hm] at h
        simp only [hf, hr] at h
        simp at h
      | ok ff =>
        refine ⟨elems, ff, hm, rfl, hr, ?_⟩
        cases hc : co.committer (mergeBlockAndPvt b
            (fromSuppliedOf co b pvt ++ fromStoreOf co b pvt ++ ff)) with
        | none => rfl
        | some e =>
          exfalso
          rw [StoreBlock, if_neg hm] at h
          simp only [hf, hr, hc] at h
          simp at h

theorem storeBlock_nofetch_reject (co : Collaborators) (b : Block) (pvt : List TxPvtData)
    (e : String) (hm : missingAfterStoreOf co b pvt = [])
    (hcommit : co.committer (mergeBlockAndPvt b
      (fromSuppliedOf co b pvt ++ fromStoreOf co b pvt)) = some e) :
    StoreBlock co b pvt =
      (.error e, storeEventsOf co b pvt ++ [.commitCall (mergeBlockAndPvt b
        (fromSuppliedOf co b pvt ++ fromStoreOf co b pvt))]) := by
  rw [StoreBlock, if_pos hm]
  simp only [hcommit]

theorem storeBlock_fetch_reject (co : Collaborators) (b : Block) (pvt : List TxPvtData)
    (elems : List PvtDataElement) (fromFetch : List (Requirement × Bytes)) (e : String)
    (hmiss : missingAfterStoreOf co b pvt ≠ [])
    (helems : co.fetch (fetchDigestsOf co b pvt) = .ok elems)
    (hres : resolveFetched co.hashF (missingAfterStoreOf co b pvt) elems = .ok fromFetch)
    (hcommit : co.committer (mergeBlockAndPvt b
      (fromSuppliedOf co b pvt ++ fromStoreOf co b pvt ++ fromFetch)) = some e) :
    StoreBlock co b pvt =
      (.error e, storeEventsOf co b pvt ++ [.fetchCall (fetchDigestsOf co b pvt)]
        ++ persistEventsOf elems
        ++ [.commitCall (mergeBlockAndPvt b
              (fromSuppliedOf co b pvt ++ fromStoreOf co b pvt ++ fromFetch))]) := by
  rw [StoreBlock, if_neg hmiss]
  simp only [helems, hres, hcommit]

theorem ledgerAfterRun_no_commit : ∀ (es : List Event) (st : List BlockAndPvtData),
    (∀ e ∈ es, e.isCommit = false) → ledgerAfterRun st es = st := by
  intro es
  induction es with
  | nil => intro st _; rfl
  | cons e es ih =>
    intro st h
    have he := h e (List.mem_cons_self e es)
    have ht : ∀ x ∈ es, x.isCommit = false := fun x hx => h x (List.mem_cons_of_mem e hx)
    cases e with
    | commitCall bp => simp [Event.isCommit] at he
    | storeQuery tid f => exact ih st ht
    | fetchCall ds => exact ih st ht
    | persistCall tid ws => exact ih st ht

theorem ledgerAfterRun_append : ∀ (es1 : List Event) (st : List BlockAndPvtData)
    (es2 : List Event),
    ledgerAfterRun st (es1 ++ es2) = ledgerAfterRun (ledgerAfterRun st es1) es2 := by
  intro es1
  induction es1 with
  | nil => intro st es2; rfl
  | cons e es ih =>
    intro st es2
    cases e with
    | commitCall bp => exact ih (ledgerCommit st bp).2 es2
    | storeQuery tid f => exact ih st es2
    | fetchCall ds => exact ih st es2
    | persistCall tid ws => exact ih st es2

theorem ledgerAfterRun_storeEvents (co : Collaborators) (b : Block) (pvt : List TxPvtData)
    (st : List BlockAndPvtData) :
    ledgerAfterRun st (storeEventsOf co b pvt) = st := by
  apply ledgerAfterRun_no_commit
  intro e he
  simp only [storeEventsOf, List.mem_map] at he
  obtain ⟨tid, _, rfl⟩ := he
  rfl

theorem ledgerAfterRun_persistEvents (elems : List PvtDataElement)
    (st : List BlockAndPvtData) :
    ledgerAfterRun st (persistEventsOf elems) = st := by
  apply ledgerAfterRun_no_commit
  intro e he
  simp only [persistEventsOf, List.mem_map] at he
  obtain ⟨el, _, rfl⟩ := he
  rfl

theorem storeEvents_all_not_commit (co : Collaborators) (b : Block) (pvt : List TxPvtData) :
    ∀ e ∈ storeEventsOf co b pvt, e.isCommit = false := by
  intro e he
  simp only [storeEventsOf, List.mem_map] at he
  obtain ⟨tid, _, rfl⟩ := he
  rfl

theorem persistEvents_all_not_commit (elems : List PvtDataElement) :
    ∀ e ∈ persistEventsOf elems, e.isCommit = false := by
  intro e he
  simp only [persistEventsOf, List.mem_map] at he
  obtain ⟨el, _, rfl⟩ := he
  rfl

theorem ledgerAfterRun_commit_last (st : List BlockAndPvtData) (es : List Event)
    (bp : BlockAndPvtData) (h : ∀ e ∈ es, e.isCommit = false) :
    ledgerAfterRun st (es ++ [.commitCall bp]) = (ledgerCommit st bp).2 := by
  rw [ledgerAfterRun_append, ledgerAfterRun_no_commit es st h]
  rfl

theorem storeBlock_nofetch_run (co : Collaborators) (b : Block) (pvt : List TxPvtData)
    (hm : missingAfterStoreOf co b pvt = [])
    (hcommit : co.committer (mergeBlockAndPvt b
      (fromSuppliedOf co b pvt ++ fromStoreOf co b pvt)) = none) :
    StoreBlock co b pvt =
      (.ok (), storeEventsOf co b pvt ++ [.commitCall (mergeBlockAndPvt b
        (fromSuppliedOf co b pvt ++ fromStoreOf co b pvt))]) := by
  rw [StoreBlock, if_pos hm, hcommit]

/-- C1: for every block with required private-data triples still missing
after the Transient Store pass, StoreBlock issues exactly one Fetcher request
(its trace holds exactly one fetch call), the request carries every remaining
digest across the whole block and is never an empty digest set, and whenever
the fetch succeeds and validates, every fetched element is persisted into the
Transient Store before CommitWithPvtData is invoked: the trace is the store
queries, then the single fetch call, then one persist call per fetched
element, and only then the commit call. -/
theorem storeBlock_batched_fetch_and_persist (co : Collaborators) (b : Block)
    (pvt : List TxPvtData) (hmiss : missingAfterStoreOf co b pvt ≠ []) :
    (StoreBlock co b pvt).2.filter Event.isFetch =
      [.fetchCall ((missingAfterStoreOf co b pvt).map (fun r => r.digest))] ∧
    (missingAfterStoreOf co b pvt).map (fun r => r.digest) ≠ [] ∧
    (∀ elems fromFetch,
      co.fetch (fetchDigestsOf co b pvt) = .ok elems →
      resolveFetched co.hashF (missingAfterStoreOf co b pvt) elems = .ok fromFetch →
      (StoreBlock co b pvt).2 =
        storeEventsOf co b pvt ++ [.fetchCall (fetchDigestsOf co b pvt)]
          ++ persistEventsOf elems
          ++ [.commitCall (mergeBlockAndPvt b
                (fromSuppliedOf co b pvt ++ fromStoreOf co b pvt ++ fromFetch))]) := by
  refine ⟨storeBlock_one_fetch co b pvt hmiss, ?_, ?_⟩
  · simp only [ne_eq, List.map_eq_nil_iff]
    exact hmiss
  · intro elems ff he hr
    exact storeBlock_fetch_trace co b pvt elems ff hmiss he hr

/-- C2: when hash-matching entries of the supplied pvtData cover the block's
entire required set, StoreBlock succeeds with a trace holding nothing but the
single commit call (no Transient Store query, no Fetcher call, no persist),
and the committed triples are exactly the block's required triples — surplus
entries are silently discarded without producing an error. -/
theorem storeBlock_sufficient_inline_data (co : Collaborators) (b : Block)
    (pvt : List TxPvtData)
    (hall : missingAfterSuppliedOf co b pvt = [])
    (hcommit : co.committer (mergeBlockAndPvt b (fromSuppliedOf co b pvt)) = none) :
    StoreBlock co b pvt =
      (.ok (), [.commitCall (mergeBlockAndPvt b (fromSuppliedOf co b pvt))]) ∧
    ∀ t, t ∈ triplesOfBP (mergeBlockAndPvt b (fromSuppliedOf co b pvt)) ↔
      t ∈ requiredTriples b := by
  have hse := storeEvents_of_no_missing co b pvt hall
  have hfs := fromStore_of_no_missing co b pvt hall
  have hms := missingStore_of_no_missing co b pvt hall
  constructor
  · have hrun := storeBlock_nofetch_run co b pvt hms (by rw [hfs, List.append_nil]; exact hcommit)
    rw [hrun, hse, hfs, List.append_nil, List.nil_append]
  · intro t
    rw [mem_triplesOf_merge]
    have hmap : (fromSuppliedOf co b pvt).map (fun p => tripleOfReq p.1) =
        requiredTriples b := by
      have h2 := fromSupplied_fst_of_no_missing co b pvt hall
      calc (fromSuppliedOf co b pvt).map (fun p => tripleOfReq p.1)
          = ((fromSuppliedOf co b pvt).map Prod.fst).map tripleOfReq := by
            rw [List.map_map]; rfl
        _ = requiredTriples b := by rw [h2]; rfl
    rw [hmap]

/-- C3: when the supplied pvtData leaves requirements unsatisfied, StoreBlock
queries the Transient Store once per transaction id (the queried ids are
pairwise distinct) with a filter restricted exactly to that transaction's
still-missing namespaces/collections, and when the store supplies
hash-matching write sets for every missing triple, StoreBlock commits using
the supplied plus store-resolved data and its trace holds no Fetcher call. -/
theorem storeBlock_transient_store_fallback (co : Collaborators) (b : Block)
    (pvt : List TxPvtData)
    (hm2 : missingAfterStoreOf co b pvt = [])
    (hcommit : co.committer (mergeBlockAndPvt b
      (fromSuppliedOf co b pvt ++ fromStoreOf co b pvt)) = none) :
    StoreBlock co b pvt =
      (.ok (), storeEventsOf co b pvt ++ [.commitCall (mergeBlockAndPvt b
        (fromSuppliedOf co b pvt ++ fromStoreOf co b pvt))]) ∧
    storeEventsOf co b pvt =
      (txIDsOf co b pvt).map (fun tid =>
        .storeQuery tid (mkFilter (txMissingOf co b pvt tid))) ∧
    (txIDsOf co b pvt).Nodup ∧
    (StoreBlock co b pvt).2.filter Event.isFetch = [] := by
  have hrun := storeBlock_nofetch_run co b pvt hm2 hcommit
  refine ⟨hrun, rfl, nodup_dedupFirst _, ?_⟩
  rw [hrun]
  simp [List.filter_append, storeEvents_no_fetch, Event.isFetch]

/-- C4: a Transient Store query or cursor error is never by itself propagated
as a StoreBlock failure: with the store erroring on every query, the affected
requirements are exactly those left missing after the supplied-data pass
(nothing more is lost, nothing resolved), they are forwarded to the Fetcher,
and StoreBlock succeeds and commits when the fetch supplies the missing
data. -/
theorem storeBlock_store_error_recovered (co : Collaborators) (b : Block)
    (pvt : List TxPvtData) (elems : List PvtDataElement)
    (fromFetch : List (Requirement × Bytes))
    (hstore : ∀ tid f, co.store tid f = none)
    (hmiss : missingAfterSuppliedOf co b pvt ≠ [])
    (helems : co.fetch ((missingAfterSuppliedOf co b pvt).map (fun r => r.digest)) = .ok elems)
    (hres : resolveFetched co.hashF (missingAfterSuppliedOf co b pvt) elems = .ok fromFetch)
    (hcommit : co.committer (mergeBlockAndPvt b
      (fromSuppliedOf co b pvt ++ fromFetch)) = none) :
    missingAfterStoreOf co b pvt = missingAfterSuppliedOf co b pvt ∧
    (StoreBlock co b pvt).1 = .ok () ∧
    (StoreBlock co b pvt).2 =
      storeEventsOf co b pvt
        ++ [.fetchCall ((missingAfterSuppliedOf co b pvt).map (fun r => r.digest))]
        ++ persistEventsOf elems
        ++ [.commitCall (mergeBlockAndPvt b (fromSuppliedOf co b pvt ++ fromFetch))] := by
  have hmu := store_error_missing_unchanged co b pvt hstore
  have hfs := store_error_fromStore_nil co b pvt hstore
  have hmiss2 : missingAfterStoreOf co b pvt ≠ [] := by rw [hmu]; exact hmiss
  have hds : fetchDigestsOf co b pvt =
      (missingAfterSuppliedOf co b pvt).map (fun r => r.digest) := by
    rw [fetchDigestsOf, hmu]
  have helems2 : co.fetch (fetchDigestsOf co b pvt) = .ok elems := by
    rw [hds]; exact helems
  have hres2 : resolveFetched co.hashF (missingAfterStoreOf co b pvt) elems =
      .ok fromFetch := by
    rw [hmu]; exact hres
  have hcommit2 : co.committer (mergeBlockAndPvt b
      (fromSuppliedOf co b pvt ++ fromStoreOf co b pvt ++ fromFetch)) = none := by
    rw [hfs, List.append_nil]; exact hcommit
  refine ⟨hmu, storeBlock_fetch_ok co b pvt elems fromFetch hmiss2 helems2 hres2 hcommit2, ?_⟩
  rw [storeBlock_fetch_trace co b pvt elems fromFetch hmiss2 helems2 hres2, hds, hfs,
    List.append_nil]

/-- C5: reconciliation is idempotent — calling StoreBlock twice with the
same block and the same supplied private data, the Transient Store and
Fetcher answering consistently (the same pure oracles serve both runs) and
the Committer backed by the ledger that commits each height exactly once
(§3), yields exactly one successful commit and no duplicate BlockAndPvtData
entries: when the first call succeeds, the ledger after both calls holds
exactly the one BlockAndPvtData that call committed — the retried commit of
the same height is rejected and adds nothing — and that single entry has
pairwise-distinct seqInBlock keys. -/
theorem storeBlock_idempotent_reconciliation (co : Collaborators) (b : Block)
    (pvt : List TxPvtData) (h : (StoreBlockTwiceLedger co b pvt).1.1 = .ok ()) :
    ∃ bp, (StoreBlockTwiceLedger co b pvt).2.2 = [bp] ∧
      (bp.BlockPvtData.map Prod.fst).Nodup := by
  have h1 : (StoreBlock (withLedger co []) b pvt).1 = .ok () := h
  obtain ⟨hm, hc⟩ | ⟨elems, ff, hm, hf, hr, hc⟩ :=
    storeBlock_ok_shape (withLedger co []) b pvt h1
  · rw [missingAfterStore_withLedger] at hm
    have hrun1 := storeBlock_nofetch_run (withLedger co []) b pvt
      (by rw [missingAfterStore_withLedger]; exact hm) hc
    rw [storeEvents_withLedger, fromSupplied_withLedger, fromStore_withLedger] at hrun1
    have htr1 : (firstRunOf co b pvt).2 = storeEventsOf co b pvt ++
        [.commitCall (mergeBlockAndPvt b
          (fromSuppliedOf co b pvt ++ fromStoreOf co b pvt))] := by
      rw [firstRunOf, hrun1]
    have hst1 : ledger1Of co b pvt =
        [mergeBlockAndPvt b (fromSuppliedOf co b pvt ++ fromStoreOf co b pvt)] := by
      rw [ledger1Of, htr1,
        ledgerAfterRun_commit_last _ _ _ (storeEvents_all_not_commit co b pvt)]
      rfl
    have hm2 : missingAfterStoreOf (withLedger co (ledger1Of co b pvt)) b pvt = [] := by
      rw [missingAfterStore_withLedger]; exact hm
    have hc2 : (withLedger co (ledger1Of co b pvt)).committer (mergeBlockAndPvt b
        (fromSuppliedOf (withLedger co (ledger1Of co b pvt)) b pvt ++
          fromStoreOf (withLedger co (ledger1Of co b pvt)) b pvt)) =
        some "block already committed" := by
      rw [fromSupplied_withLedger, fromStore_withLedger, committer_withLedger, hst1,
        ledgerCommit, if_pos (by simp)]
    have hrun2 := storeBlock_nofetch_reject (withLedger co (ledger1Of co b pvt)) b pvt
      "block already committed" hm2 hc2
    rw [storeEvents_withLedger, fromSupplied_withLedger, fromStore_withLedger] at hrun2
    have htr2 : (secondRunOf co b pvt).2 = storeEventsOf co b pvt ++
        [.commitCall (mergeBlockAndPvt b
          (fromSuppliedOf co b pvt ++ fromStoreOf co b pvt))] := by
      rw [secondRunOf, hrun2]
    have hst2 : ledger2Of co b pvt =
        [mergeBlockAndPvt b (fromSuppliedOf co b pvt ++ fromStoreOf co b pvt)] := by
      rw [ledger2Of, htr2,
        ledgerAfterRun_commit_last _ _ _ (storeEvents_all_not_commit co b pvt), hst1,
        ledgerCommit, if_pos (by simp)]
    exact ⟨mergeBlockAndPvt b (fromSuppliedOf co b pvt ++ fromStoreOf co b pvt),
      hst2, merge_keys_nodup b _⟩
  · rw [missingAfterStore_withLedger] at hm
    have hrun1 := storeBlock_fetch_trace (withLedger co []) b pvt elems ff
      (by rw [missingAfterStore_withLedger]; exact hm) hf hr
    rw [storeEvents_withLedger, fetchDigests_withLedger, fromSupplied_withLedger,
      fromStore_withLedger] at hrun1
    have hnc : ∀ e ∈ storeEventsOf co b pvt ++ [Event.fetchCall (fetchDigestsOf co b pvt)]
        ++ persistEventsOf elems, e.isCommit = false := by
      intro e he
      simp only [List.mem_append, List.mem_singleton] at he
      rcases he with (he | he) | he
      · exact storeEvents_all_not_commit co b pvt e he
      · rw [he]; rfl
      · exact persistEvents_all_not_commit elems e he
    have htr1 : (firstRunOf co b pvt).2 =
        (storeEventsOf co b pvt ++ [.fetchCall (fetchDigestsOf co b pvt)]
          ++ persistEventsOf elems) ++ [.commitCall (mergeBlockAndPvt b
            (fromSuppliedOf co b pvt ++ fromStoreOf co b pvt ++ ff))] := by
      rw [firstRunOf, hrun1]
    have hst1 : ledger1Of co b pvt =
        [mergeBlockAndPvt b (fromSuppliedOf co b pvt ++ fromStoreOf co b pvt ++ ff)] := by
      rw [ledger1Of, htr1, ledgerAfterRun_commit_last _ _ _ hnc]
      rfl
    have hm2 : missingAfterStoreOf (withLedger co (ledger1Of co b pvt)) b pvt ≠ [] := by
      rw [missingAfterStore_withLedger]; exact hm
    have hf2 : (withLedger co (ledger1Of co b pvt)).fetch
        (fetchDigestsOf (withLedger co (ledger1Of co b pvt)) b pvt) = .ok elems := by
      rw [fetch_withLedger, fetchDigests_withLedger]
      rw [fetch_withLedger, fetchDigests_withLedger] at hf
      exact hf
    have hr2 : resolveFetched (withLedger co (ledger1Of co b pvt)).hashF
        (missingAfterStoreOf (withLedger co (ledger1Of co b pvt)) b pvt) elems =
        .ok ff := by
      rw [hashF_withLedger, missingAfterStore_withLedger]
      rw [hashF_withLedger, missingAfterStore_withLedger] at hr
      exact hr
    have hc2 : (withLedger co (ledger1Of co b pvt)).committer (mergeBlockAndPvt b
        (fromSuppliedOf (withLedger co (ledger1Of co b pvt)) b pvt ++
          fromStoreOf (withLedger co (ledger1Of co b pvt)) b pvt ++ ff)) =
        some "block already committed" := by
      rw [fromSupplied_withLedger, fromStore_withLedger, committer_withLedger, hst1,
        ledgerCommit, if_pos (by simp)]
    have hrun2 := storeBlock_fetch_reject (withLedger co (ledger1Of co b pvt)) b pvt
      elems ff "block already committed" hm2 hf2 hr2 hc2
    rw [storeEvents_withLedger, fetchDigests_withLedger, fromSupplied_withLedger,
      fromStore_withLedger] at hrun2
    have htr2 : (secondRunOf co b pvt).2 =
        (storeEventsOf co b pvt ++ [.fetchCall (fetchDigestsOf co b pvt)]
          ++ persistEventsOf elems) ++ [.commitCall (mergeBlockAndPvt b
            (fromSuppliedOf co b pvt ++ fromStoreOf co b pvt ++ ff))] := by
      rw [secondRunOf, hrun2]
    have hst2 : ledger2Of co b pvt =
        [mergeBlockAndPvt b (fromSuppliedOf co b pvt ++ fromStoreOf co b pvt ++ ff)] := by
      rw [ledger2Of, htr2, ledgerAfterRun_commit_last _ _ _ hnc, hst1,
        ledgerCommit, if_pos (by simp)]
    exact ⟨mergeBlockAndPvt b (fromSuppliedOf co b pvt ++ fromStoreOf co b pvt ++ ff),
      hst2, merge_keys_nodup b _⟩

/-- A content-hash oracle for concrete runs: injective, cheap to evaluate. -/
def hashF0 : Bytes → Hash := fun bts => 0 :: bts

/-- The private write-set pre-image used throughout the repository's tests. -/
def preim : Bytes := [7, 7, 7]

/-- The test block: tx1 committing ns1 collections c1, c2 and tx2 committing
ns2 collection c1, block number 1. -/
def block1 : Block where
  Header := { Number := 1 }
  Txns :=
    [{ txID := "tx1", commitments := [("ns1", "c1", hashF0 preim), ("ns1", "c2", hashF0 preim)] },
      { txID := "tx2", commitments := [("ns2", "c1", hashF0 preim)] }]

/-- Collaborators of test scenario III: empty transient store, a fetcher
supplying both missing elements, an accepting committer. -/
def co3 : Collaborators where
  hashF := hashF0
  store := fun _ _ => some []
  fetch := fun _ =>
    .ok [{ Digest := mkDigest "tx1" "ns1" "c2" 1 0, Payload := [preim] },
      { Digest := mkDigest "tx2" "ns2" "c1" 1 1, Payload := [preim] }]
  committer := fun _ => none

/-- Supplied data of scenario III: only ns1 collection c1 of tx1. -/
def pvt3 : List TxPvtData := [mkTx 0 (some (mkWS [mkNs "ns1" [mkCol "c1" preim]]))]

/-- The elements the scenario-III fetcher returns. -/
def elems3 : List PvtDataElement :=
  [{ Digest := mkDigest "tx1" "ns1" "c2" 1 0, Payload := [preim] },
    { Digest := mkDigest "tx2" "ns2" "c1" 1 1, Payload := [preim] }]

/-- The requirement resolutions the scenario-III fetch validates to. -/
def ff3 : List (Requirement × Bytes) :=
  [({ digest := mkDigest "tx1" "ns1" "c2" 1 0, commitment := hashF0 preim }, preim),
    ({ digest := mkDigest "tx2" "ns2" "c1" 1 1, commitment := hashF0 preim }, preim)]

/-- C1 witness: scenario III of TestCoordinatorStoreBlock — two triples
missing across two transactions, empty store, one batched fetch of both
digests, both elements persisted before the commit. -/
theorem storeBlock_batched_fetch_and_persist_witness :
    (StoreBlock co3 block1 pvt3).2.filter Event.isFetch =
      [.fetchCall ((missingAfterStoreOf co3 block1 pvt3).map (fun r => r.digest))] ∧
    (missingAfterStoreOf co3 block1 pvt3).map (fun r => r.digest) ≠ [] ∧
    (StoreBlock co3 block1 pvt3).2 =
      storeEventsOf co3 block1 pvt3 ++ [.fetchCall (fetchDigestsOf co3 block1 pvt3)]
        ++ persistEventsOf elems3
        ++ [.commitCall (mergeBlockAndPvt block1
              (fromSuppliedOf co3 block1 pvt3 ++ fromStoreOf co3 block1 pvt3 ++ ff3))] := by
  have h := storeBlock_batched_fetch_and_persist co3 block1 pvt3 (by decide)
  exact ⟨h.1, h.2.1, h.2.2 elems3 ff3 (by decide) (by decide)⟩

/-- Collaborators of test scenario I: untouched store and fetcher, accepting
committer. -/
def coInline : Collaborators where
  hashF := hashF0
  store := fun _ _ => none
  fetch := fun _ => .error "unexpected fetch"
  committer := fun _ => none

/-- Supplied data covering the whole of block1's required set. -/
def pvtFull : List TxPvtData :=
  [mkTx 0 (some (mkWS [mkNs "ns1" [mkCol "c1" preim, mkCol "c2" preim]])),
    mkTx 1 (some (mkWS [mkNs "ns2" [mkCol "c1" preim]]))]

/-- C2 witness: scenario I of TestCoordinatorStoreBlock — sufficient inline
data commits with no store or fetcher call. -/
theorem storeBlock_sufficient_inline_data_witness :
    StoreBlock coInline block1 pvtFull =
      (.ok (), [.commitCall (mergeBlockAndPvt block1
        (fromSuppliedOf coInline block1 pvtFull))]) ∧
    ((0, "ns1", "c1") ∈
        triplesOfBP (mergeBlockAndPvt block1 (fromSuppliedOf coInline block1 pvtFull)) ↔
      (0, "ns1", "c1") ∈ requiredTriples block1) := by
  have h := storeBlock_sufficient_inline_data coInline block1 pvtFull (by decide) (by decide)
  exact ⟨h.1, h.2 (0, "ns1", "c1")⟩

/-- Collaborators of test scenario II: the store answers tx1's query with the
missing ns1 collection c2, the fetcher is untouched. -/
def coStore : Collaborators where
  hashF := hashF0
  store := fun tid _ =>
    if tid = "tx1" then some [mkWS [mkNs "ns1" [mkCol "c2" preim]]] else some []
  fetch := fun _ => .error "unexpected fetch"
  committer := fun _ => none

/-- Supplied data of scenario II: missing ns1 collection c2. -/
def pvt2 : List TxPvtData :=
  [mkTx 0 (some (mkWS [mkNs "ns1" [mkCol "c1" preim]])),
    mkTx 1 (some (mkWS [mkNs "ns2" [mkCol "c1" preim]]))]

/-- C3 witness: scenario II of TestCoordinatorStoreBlock — the store supplies
the one missing collection under tx1 and no fetch is issued. -/
theorem storeBlock_transient_store_fallback_witness :
    StoreBlock coStore block1 pvt2 =
      (.ok (), storeEventsOf coStore block1 pvt2 ++ [.commitCall (mergeBlockAndPvt block1
        (fromSuppliedOf coStore block1 pvt2 ++ fromStoreOf coStore block1 pvt2))]) ∧
    storeEventsOf coStore block1 pvt2 =
      (txIDsOf coStore block1 pvt2).map (fun tid =>
        .storeQuery tid (mkFilter (txMissingOf coStore block1 pvt2 tid))) ∧
    (txIDsOf coStore block1 pvt2).Nodup ∧
    (StoreBlock coStore block1 pvt2).2.filter Event.isFetch = [] :=
  storeBlock_transient_store_fallback coStore block1 pvt2 (by decide) (by decide)

/-- The test block of scenario V: one transaction tx3 committing ns3
collection c3. -/
def blockV : Block where
  Header := { Number := 1 }
  Txns := [{ txID := "tx3", commitments := [("ns3", "c3", hashF0 preim)] }]

/-- Collaborators of test scenario V: a store erroring on every query, a
fetcher supplying the missing element, an accepting committer. -/
def coV : Collaborators where
  hashF := hashF0
  store := fun _ _ => none
  fetch := fun _ => .ok [{ Digest := mkDigest "tx3" "ns3" "c3" 1 0, Payload := [preim] }]
  committer := fun _ => none

/-- The element the scenario-V fetcher returns. -/
def elemsV : List PvtDataElement :=
  [{ Digest := mkDigest "tx3" "ns3" "c3" 1 0, Payload := [preim] }]

/-- The requirement resolution the scenario-V fetch validates to. -/
def ffV : List (Requirement × Bytes) :=
  [({ digest := mkDigest "tx3" "ns3" "c3" 1 0, commitment := hashF0 preim }, preim)]

/-- C4 witness: scenario V of TestCoordinatorStoreBlock — no supplied data, a
failing transient store, recovery through the fetcher, successful commit. -/
theorem storeBlock_store_error_recovered_witness :
    missingAfterStoreOf coV blockV [] = missingAfterSuppliedOf coV blockV [] ∧
    (StoreBlock coV blockV []).1 = .ok () ∧
    (StoreBlock coV blockV []).2 =
      storeEventsOf coV blockV []
        ++ [.fetchCall ((missingAfterSuppliedOf coV blockV []).map (fun r => r.digest))]
        ++ persistEventsOf elemsV
        ++ [.commitCall (mergeBlockAndPvt blockV (fromSuppliedOf coV blockV [] ++ ffV))] :=
  storeBlock_store_error_recovered coV blockV [] elemsV ffV
    (fun _ _ => rfl) (by decide) (by decide) (by decide) (by decide)

/-- C5 witness: the double run over scenario-I data with the ledger-backed
committer — the first call succeeds and the final ledger holds exactly one
committed entry. -/
theorem storeBlock_idempotent_reconciliation_witness :
    (StoreBlockTwiceLedger coInline block1 pvtFull).1.1 = .ok () ∧
    (StoreBlockTwiceLedger coInline block1 pvtFull).2.2.length = 1 := by
  obtain ⟨bp, hbp, hnd⟩ :=
    storeBlock_idempotent_reconciliation coInline block1 pvtFull (by decide)
  refine ⟨by decide, ?_⟩
  rw [hbp]
  rfl

/-- Modelled from the spec: GetBlockByNum (coordinator implementation absent
from the tree) — delegates to the Committer's block-range query for the one
requested height; an empty result yields the not-found error referencing the
requested number, with the wording TestCoordinatorGetBlocks pins ("cannot
retrieve block number <n>"). -/
def GetBlockByNum (getBlocks : List Nat → List Block) (seqNum : Nat) :
    Except String Block :=
  match getBlocks [seqNum] with
  | [] => .error ("cannot retrieve block number " ++ toString seqNum)
  | blk :: _ => .ok blk

/-- C8: GetBlockByNum fails with an error referencing the requested number
when the Committer's block-range query returns an empty result for that
height, and when the height is present — the committer returning a block
whose header carries the requested number, as a correct ledger does — it
returns a block whose header number equals the request. -/
theorem getBlockByNum_spec (getBlocks : List Nat → List Block) (seqNum : Nat) :
    (getBlocks [seqNum] = [] →
      GetBlockByNum getBlocks seqNum =
        .error ("cannot retrieve block number " ++ toString seqNum)) ∧
    (∀ blk rest, getBlocks [seqNum] = blk :: rest → blk.Header.Number = seqNum →
      ∃ b2, GetBlockByNum getBlocks seqNum = .ok b2 ∧ b2.Header.Number = seqNum) := by
  constructor
  · intro h
    rw [GetBlockByNum, h]
  · intro blk rest h hn
    exact ⟨blk, by rw [GetBlockByNum, h], hn⟩

/-- A one-header block of height 1 for the retrieval runs. -/
def blkOne : Block where
  Header := { Number := 1 }
  Txns := []

/-- C8 witness: the absent height errs with the message naming height 1; the
present height returns the height-1 block. -/
theorem getBlockByNum_spec_witness :
    GetBlockByNum (fun _ => []) 1 = .error "cannot retrieve block number 1" ∧
    GetBlockByNum (fun _ => [blkOne]) 1 = .ok blkOne := by
  constructor
  · exact (getBlockByNum_spec (fun _ => []) 1).1 rfl
  · obtain ⟨b2, hb, hn⟩ := (getBlockByNum_spec (fun _ => [blkOne]) 1).2 blkOne [] rfl rfl
    exact (by rfl : GetBlockByNum (fun _ => [blkOne]) 1 = .ok blkOne)

/-- Modelled from the spec: GetPvtDataAndBlockByNum (coordinator
implementation absent from the tree) — delegates to the Committer's combined
query; on failure it returns a nil block, an empty collection value and the
error unchanged; on success the block plus its stored private data flattened
into the collection-sequence form. -/
def GetPvtDataAndBlockByNum (getBP : Nat → Except String BlockAndPvtData)
    (seqNum : Nat) : Option Block × List TxPvtData × Option String :=
  match getBP seqNum with
  | .error e => (none, [], some e)
  | .ok bp => (some bp.Block, bp.BlockPvtData.map Prod.snd, none)

/-- C9: when the Committer's combined query fails, GetPvtDataAndBlockByNum
returns the error unchanged together with a nil block and an empty
PvtDataCollections value — never a partially populated one; on success it
returns the block plus its stored private data converted to the collection
sequence form. -/
theorem getPvtDataAndBlockByNum_spec (getBP : Nat → Except String BlockAndPvtData)
    (seqNum : Nat) :
    (∀ e, getBP seqNum = .error e →
      GetPvtDataAndBlockByNum getBP seqNum = (none, [], some e)) ∧
    (∀ bp, getBP seqNum = .ok bp →
      GetPvtDataAndBlockByNum getBP seqNum =
        (some bp.Block, bp.BlockPvtData.map Prod.snd, none)) := by
  constructor
  · intro e h
    rw [GetPvtDataAndBlockByNum, h]
  · intro bp h
    rw [GetPvtDataAndBlockByNum, h]

/-- The combined query result of the retrieval test: the height-1 block plus
one private-data entry at position 0. -/
def bpW : BlockAndPvtData where
  Block := blkOne
  BlockPvtData := [(0, mkTx 0 none)]

/-- C9 witness: the failing query hands back "uh oh" unchanged with nil block
and empty collections; the succeeding one hands back block and data. -/
theorem getPvtDataAndBlockByNum_spec_witness :
    GetPvtDataAndBlockByNum (fun _ => .error "uh oh") 1 = (none, [], some "uh oh") ∧
    GetPvtDataAndBlockByNum (fun _ => .ok bpW) 1 =
      (some bpW.Block, bpW.BlockPvtData.map Prod.snd, none) :=
  ⟨(getPvtDataAndBlockByNum_spec (fun _ => .error "uh oh") 1).1 "uh oh" rfl,
    (getPvtDataAndBlockByNum_spec (fun _ => .ok bpW) 1).2 bpW rfl⟩

end Privdata

namespace GossipService

/-- Outcome oracles of one channel's private-data handler for a single
DistributePrivateData call: what Distribute would return, and what the
coordinator's StorePvtData (the transient-store write) would return. -/
structure HandlerOutcome where
  distributeResult : Option String
  storePvtDataResult : Option String
deriving DecidableEq, Repr

/-- One observable collaborator call of DistributePrivateData. -/
inductive DistEvent where
  | distributeCall (txID : String)
  | storePvtDataCall (txID : String)
deriving DecidableEq, Repr

/-- gossipServiceImpl.DistributePrivateData
(gossip/service/gossip_service.go): look the channel up in the
private-handler map (here an association list; the source guards it with a
read lock); a missing channel returns the "No private data handler for
<chainID>" error with no collaborator call; otherwise Distribute runs first
and its failure returns immediately, leaving the transient store unwritten;
then the coordinator's StorePvtData runs and its result is returned.  The two
collaborator calls are outcome oracles and the trace records the calls
made. -/
def DistributePrivateData (handlers : List (String × HandlerOutcome))
    (chainID txID : String) : Option String × List DistEvent :=
  match handlers.find? (fun h => h.1 == chainID) with
  | none => (some ("No private data handler for " ++ chainID), [])
  | some h =>
    match h.2.distributeResult with
    | some e => (some e, [.distributeCall txID])
    | none =>
      match h.2.storePvtDataResult with
      | some e => (some e, [.distributeCall txID, .storePvtDataCall txID])
      | none => (none, [.distributeCall txID, .storePvtDataCall txID])

/-- C10: DistributePrivateData on a channel with no registered private-data
handler returns an error naming "No private data handler for" plus the
channel id without invoking the distributor or the coordinator (empty
trace); on a registered channel the transient-store write is invoked only
after Distribute has succeeded: a distribution failure returns that error
with only the distribute call in the trace, and after a successful
distribution StorePvtData is called and its result is the call's result. -/
theorem distributePrivateData_spec (handlers : List (String × HandlerOutcome))
    (chainID txID : String) :
    (handlers.find? (fun h => h.1 == chainID) = none →
      DistributePrivateData handlers chainID txID =
        (some ("No private data handler for " ++ chainID), [])) ∧
    (∀ h, handlers.find? (fun h2 => h2.1 == chainID) = some h →
      (∀ e, h.2.distributeResult = some e →
        DistributePrivateData handlers chainID txID =
          (some e, [.distributeCall txID])) ∧
      (h.2.distributeResult = none →
        (DistributePrivateData handlers chainID txID).2 =
          [.distributeCall txID, .storePvtDataCall txID] ∧
        (DistributePrivateData handlers chainID txID).1 =
          h.2.storePvtDataResult)) := by
  constructor
  · intro hnone
    rw [DistributePrivateData, hnone]
  · intro h hfind
    constructor
    · intro e he
      simp only [DistributePrivateData, hfind, he]
    · intro hd
      simp only [DistributePrivateData, hfind, hd]
      cases hs : h.2.storePvtDataResult <;> simp [hs]

/-- The handler map of the concrete run: channel chA healthy, channel chB
with a failing distributor. -/
def handlersW : List (String × HandlerOutcome) :=
  [("chA", { distributeResult := none, storePvtDataResult := none }),
    ("chB", { distributeResult := some "distribution failed", storePvtDataResult := none })]

/-- C10 witness: the unregistered channel chZ errs without any call, chB's
distribution failure leaves the store unwritten, and chA reaches the store
write after distribution. -/
theorem distributePrivateData_spec_witness :
    DistributePrivateData handlersW "chZ" "tx1" =
      (some ("No private data handler for " ++ "chZ"), []) ∧
    DistributePrivateData handlersW "chB" "tx1" =
      (some "distribution failed", [.distributeCall "tx1"]) ∧
    (DistributePrivateData handlersW "chA" "tx1").2 =
      [.distributeCall "tx1", .storePvtDataCall "tx1"] := by
  have h1 := (distributePrivateData_spec handlersW "chZ" "tx1").1 (by decide)
  have h2 := ((distributePrivateData_spec handlersW "chB" "tx1").2
    ("chB", { distributeResult := some "distribution failed", storePvtDataResult := none })
    (by decide)).1 "distribution failed" rfl
  have h3 := ((distributePrivateData_spec handlersW "chA" "tx1").2
    ("chA", { distributeResult := none, storePvtDataResult := none })
    (by decide)).2 rfl
  exact ⟨h1, h2, h3.1⟩

end GossipService

